import Mathlib

/-!
Verification of the access-control and command-delegation layer of the
gitlab-shell Git-over-SSH gateway.  The repository provides the source of the
archive-fetch pipeline (`internal/command/uploadarchive/uploadarchive.go`) and
the test fixtures of the credential-issuance client
(`internal/gitlabnet/personalaccesstoken/client_test.go`).  The Internal API
Client, the Access Verifier, the credential-issuance client and the audit-record
constructor are present in the repository only through their callers and tests;
they are modelled here from the specification, each such definition says so in
its doc comment.
-/

namespace GitlabShell

/-! ## Internal API Client: response normalization -/

/-- Error kinds surfaced by the Internal API Client (spec section 7 taxonomy,
restricted to the kinds exercised by the claims). -/
inductive APIError where
  | authorityMessage (msg : String)
  | parseFailure
  | bareStatus (code : Nat)
  deriving DecidableEq, Repr

/-- Human-readable text of an Internal API Client error, as surfaced by Go's
`err.Error()`. -/
def APIError.text : APIError → String
  | .authorityMessage m => m
  | .parseFailure => "Parsing failed"
  | .bareStatus c => "Internal API error (" ++ toString c ++ ")"

/-- Decoded view of a JSON response envelope: discriminating `success` flag,
optional `message`, and the credential-issuance payload fields
(`token`, `scopes`, `expires_at`).  Absent `success` decodes to `false`
(Go zero value); absent `message` is `none`. -/
structure Envelope where
  success : Bool
  message : Option String
  token : String
  scopes : List String
  expiresAt : Option String
  deriving DecidableEq, Repr

/-- Result of attempting to decode an HTTP response body as JSON: either the
raw bytes that failed to decode, or the decoded envelope. -/
inductive BodyDecode where
  | invalid (raw : String)
  | envelope (e : Envelope)
  deriving DecidableEq, Repr

/-- Whether a decoded body carries a `message` field. -/
def BodyDecode.hasMessage : BodyDecode → Bool
  | .invalid _ => false
  | .envelope e => e.message.isSome

/-- An HTTP response from the authority: status code plus body. -/
structure HTTPResponse where
  status : Nat
  body : BodyDecode
  deriving DecidableEq, Repr

/-- Whether an HTTP status code is in the 2xx success class. -/
def is2xx (status : Nat) : Bool := decide (200 ≤ status) && decide (status < 300)

/-- Modelled from the spec: the Internal API Client's response normalization
(spec section 4.1); the client's source file is not in the repository, only its
consumers and tests.  Discrimination is decode-then-branch: a 2xx status with a
decodable body yields the envelope, a 2xx status with an undecodable body is the
fixed parse failure, a non-2xx status with a decodable `message` propagates that
message, and a non-2xx status with no parseable message is reported from the
status code alone. -/
def normalizeResponse (resp : HTTPResponse) : Except APIError Envelope :=
  if is2xx resp.status then
    match resp.body with
    | .invalid _ => .error .parseFailure
    | .envelope e => .ok e
  else
    match resp.body with
    | .envelope e =>
      match e.message with
      | some m => .error (.authorityMessage m)
      | none => .error (.bareStatus resp.status)
    | .invalid _ => .error (.bareStatus resp.status)

/-- Successful result of credential issuance: the issued token, the granted
scope list, and the expiry as an opaque string passed through verbatim. -/
structure PATResult where
  token : String
  scopes : List String
  expiresAt : Option String
  deriving DecidableEq, Repr

/-- Modelled from the spec: the credential-issuance client
`personalaccesstoken.Client.GetPersonalAccessToken` (spec section 4.2); its
source file is not in the repository, only its test.  All Internal API Client
error kinds pass through unchanged; an authority-reported failure
(`success:false` on a 2xx response) becomes an ordinary authority-message
error carrying the envelope's message verbatim. -/
def GetPersonalAccessToken (resp : HTTPResponse) : Except APIError PATResult :=
  match normalizeResponse resp with
  | .error e => .error e
  | .ok env =>
    if env.success then .ok ⟨env.token, env.scopes, env.expiresAt⟩
    else .error (.authorityMessage (env.message.getD ""))

/-! ## The credential-issuance test fixture

Embedding of the HTTP handler installed by `initialize` in
`internal/gitlabnet/personalaccesstoken/client_test.go`, at the decoded level:
one request body in, one HTTP response out.  The handler's unconditional second
write keyed on `UserID == 1` is a fixture artifact the spec excludes from the
contract (section 9); it is reached here only when no key-id case matched,
which is how every test exercises it. -/

/-- Request body of a credential-issuance call, as read by the fixture handler:
the principal's key identifier and numeric user identifier, plus the requested
scopes. -/
structure RequestBody where
  keyID : String
  userID : Nat
  scopes : List String
  deriving DecidableEq, Repr

/-- The fixture handler of `client_test.go` for path
`/api/v4/internal/personal_access_token`: switches on the request's key-id,
falling through to the user-id branch, and to an empty 200 response when
nothing matched. -/
def patFixtureHandler (req : RequestBody) : HTTPResponse :=
  if req.keyID = "0" then
    ⟨200, .envelope ⟨true, none, "aAY1G3YPeemECgUvxuXY",
      ["read_api", "read_repository"], some "9001-11-17"⟩⟩
  else if req.keyID = "1" then
    ⟨200, .envelope ⟨false, some "missing user", "", [], none⟩⟩
  else if req.keyID = "2" then
    ⟨403, .envelope ⟨false, some "Not allowed!", "", [], none⟩⟩
  else if req.keyID = "3" then
    ⟨200, .invalid "\x7b \"message\": \"broken json!\""⟩
  else if req.keyID = "4" then
    ⟨403, .invalid ""⟩
  else if req.userID = 1 then
    ⟨200, .envelope ⟨true, none, "YXuxvUgCEmeePY3G1YAa", ["api"], none⟩⟩
  else
    ⟨200, .invalid ""⟩

/-! ## Archive-fetch command pipeline

Embedding of `Command.Execute` from
`internal/command/uploadarchive/uploadarchive.go`.  The collaborators it calls
(`accessverifier.Command.Verify`, `performGitalyCall`) are not in the
repository and appear as function fields of `Command`; the execution is
instrumented with a trace of the network calls it performs, in order. -/

/-- The audit record attached to a pipeline run's outcome.  Modelled from the
spec: the `command.LogData` type and its fields are not in the repository; the
audit sink receives a flat record of username, project path, project id and
root-namespace id (spec sections 3 and 6). -/
structure LogData where
  username : String
  projectPath : String
  projectID : Nat
  rootNamespaceID : Nat
  deriving DecidableEq, Repr

/-- Modelled from the spec: the audit-record constructor `command.NewLogData`,
not in the repository; it packs the approval's project path, username, project
id and root-namespace id into the audit record, as `Command.Execute` calls it. -/
def NewLogData (projectPath username : String) (projectID rootNamespaceID : Nat) : LogData :=
  ⟨username, projectPath, projectID, rootNamespaceID⟩

/-- A value stored in a request context: either the audit record under the
`"logData"` key, or some other value. -/
inductive CtxValue where
  | logData (d : LogData)
  | str (s : String)
  deriving DecidableEq, Repr

/-- A Go `context.Context` restricted to its value store: an association list
of key-value pairs, newest first. -/
structure Context where
  vals : List (String × CtxValue)
  deriving DecidableEq, Repr

/-- Go's `context.WithValue`: a derived context in which `k` maps to `v` and
every other key is looked up in the parent. -/
def Context.withValue (ctx : Context) (k : String) (v : CtxValue) : Context :=
  ⟨(k, v) :: ctx.vals⟩

/-- Go's `ctx.Value(k)`: the newest value stored under `k`, if any. -/
def Context.value (ctx : Context) (k : String) : Option CtxValue :=
  (ctx.vals.find? (fun p => p.1 == k)).map (fun p => p.2)

/-- Errors surfaced by the archive-fetch pipeline.  `disallowedCommand` is
`disallowedcommand.Error` (modelled from the spec: its source is not in the
repository; the terminal error of argument validation).  `accessDenied` is the
verifier's denial carrying the authority's message (spec section 4.3).  `api`
wraps an Internal API Client error, and `gitaly` a backend-transport failure. -/
inductive GError where
  | disallowedCommand
  | accessDenied (msg : String)
  | api (e : APIError)
  | gitaly (msg : String)
  deriving DecidableEq, Repr

/-- Human-readable text of a pipeline error, as surfaced by Go's
`err.Error()`. -/
def GError.text : GError → String
  | .disallowedCommand => "Disallowed command"
  | .accessDenied m => m
  | .api e => e.text
  | .gitaly m => m

/-- The Access Verifier's approval payload, restricted to the fields
`Command.Execute` reads: `response.Gitaly.Repo.GlProjectPath`,
`response.Username`, `response.ProjectID`, `response.RootNamespaceID`, plus the
backend routing address. -/
structure AccessResponse where
  glProjectPath : String
  username : String
  projectID : Nat
  rootNamespaceID : Nat
  gitalyAddress : String
  deriving DecidableEq, Repr

/-- One network call performed by the pipeline: either the access-verification
call with the repository argument, or the backend (Gitaly) call recording the
context and approval it was handed. -/
inductive NetCall where
  | verifier (repo : String)
  | gitaly (ctx : Context) (resp : AccessResponse)
  deriving DecidableEq, Repr

/-- Whether a recorded network call is a backend (Gitaly) call. -/
def NetCall.isGitaly : NetCall → Bool
  | .gitaly _ _ => true
  | _ => false

/-- The `uploadarchive.Command` receiver: its SSH argument vector plus its two
collaborators, the Access Verifier (`verifyAccess`, not in the repository) and
the backend transport (`performGitalyCall`, not in the repository), left
abstract as function fields. -/
structure Command where
  sshArgs : List String
  verify : String → Except GError AccessResponse
  gitalyCall : Context → AccessResponse → Option GError

/-- Outcome of one pipeline run: the returned context, the returned error if
any, and the trace of network calls performed, in order. -/
structure ExecResult where
  ctx : Context
  err : Option GError
  calls : List NetCall
  deriving DecidableEq, Repr

/-- Embedding of `Command.Execute` (uploadarchive.go lines 20-41): reject
argument vectors whose length is not 2 with the disallowed-command error before
any network call; verify access on `args[1]` and propagate a verification error
with the input context unchanged; on approval build the audit record from the
approval, attach it to the returned context under `"logData"`, and delegate to
the backend, passing the backend the ORIGINAL context (line 40 passes `ctx`,
not `ctxWithLogData`) and returning its outcome. -/
def Command.Execute (c : Command) (ctx : Context) : ExecResult :=
  let args := c.sshArgs
  if args.length ≠ 2 then
    ⟨ctx, some .disallowedCommand, []⟩
  else
    let repo := args.getD 1 ""
    match c.verify repo with
    | .error e => ⟨ctx, some e, [.verifier repo]⟩
    | .ok response =>
      let logData := NewLogData response.glProjectPath response.username
        response.projectID response.rootNamespaceID
      let ctxWithLogData := ctx.withValue "logData" (.logData logData)
      ⟨ctxWithLogData, c.gitalyCall ctx response, [.verifier repo, .gitaly ctx response]⟩

/-! ## Concrete fixtures for witnesses -/

/-- An approval payload mirroring the allowed-access test fixture of
`uploadarchive_test.go`. -/
def allowedResponse : AccessResponse :=
  ⟨"group/project-path", "alex-doe", 42, 7, "unix:gitaly.socket"⟩

/-- A command whose verifier approves and whose backend call fails, mirroring
an approved run in which delegation itself errors. -/
def allowedCmd : Command :=
  { sshArgs := ["git-upload-archive", "group/repo"]
  , verify := fun _ => .ok allowedResponse
  , gitalyCall := fun _ _ => some (.gitaly "gitaly call failed") }

/-- A command whose verifier denies with the authority message of
`TestForbiddenAccess`. -/
def forbiddenCmd : Command :=
  { sshArgs := ["git-upload-archive", "group/repo"]
  , verify := fun _ => .error (.accessDenied "Disallowed by API call")
  , gitalyCall := fun _ _ => none }

/-- A command with a one-element argument vector. -/
def badArityCmd : Command :=
  { sshArgs := ["git-upload-archive"]
  , verify := fun _ => .ok allowedResponse
  , gitalyCall := fun _ _ => none }

/-- A nonempty input context carrying a correlation value. -/
def reqCtx : Context := ⟨[("requestID", .str "r1")]⟩

/-- Looking up the key just attached by `withValue` yields the attached
value. -/
theorem Context.value_withValue_self (ctx : Context) (k : String) (v : CtxValue) :
    (ctx.withValue k v).value k = some v := by
  simp [Context.withValue, Context.value, List.find?]

/-! ## Claims about the archive-fetch pipeline -/

/-- Claim C1: when the access check is denied by the authority,
`Command.Execute` returns the verifier's error unchanged — its text is the
authority's message verbatim — with the input context untouched, and the call
trace contains only the verifier call, never the backend (Gitaly) call. -/
theorem uploadarchive_denied_no_gitaly (c : Command) (ctx : Context) (a repo msg : String)
    (hargs : c.sshArgs = [a, repo])
    (hv : c.verify repo = .error (.accessDenied msg)) :
    c.Execute ctx = ⟨ctx, some (.accessDenied msg), [.verifier repo]⟩ ∧
    (GError.accessDenied msg).text = msg := by
  refine ⟨?_, rfl⟩
  simp [Command.Execute, hargs, hv]

/-- Witness for C1 at the forbidden-access fixture. -/
theorem uploadarchive_denied_no_gitaly_witness :
    forbiddenCmd.Execute ⟨[]⟩ =
      ⟨⟨[]⟩, some (.accessDenied "Disallowed by API call"), [.verifier "group/repo"]⟩ ∧
    (GError.accessDenied "Disallowed by API call").text = "Disallowed by API call" :=
  uploadarchive_denied_no_gitaly forbiddenCmd ⟨[]⟩ "git-upload-archive" "group/repo"
    "Disallowed by API call" rfl rfl

/-- Claim C2: on a two-element argument vector with an approved access check,
the returned context carries under `"logData"` an audit record whose username,
project-path, project-id and root-namespace fields equal the approval's
corresponding fields, and the returned error is exactly the backend call's
outcome — so the record is attached even when the backend call fails. -/
theorem uploadarchive_audit_record (c : Command) (ctx : Context) (a repo : String)
    (resp : AccessResponse)
    (hargs : c.sshArgs = [a, repo])
    (hv : c.verify repo = .ok resp) :
    (c.Execute ctx).ctx.value "logData" =
      some (.logData ⟨resp.username, resp.glProjectPath, resp.projectID, resp.rootNamespaceID⟩) ∧
    (c.Execute ctx).err = c.gitalyCall ctx resp := by
  constructor
  · simp [Command.Execute, hargs, hv, NewLogData, Context.value_withValue_self]
  · simp [Command.Execute, hargs, hv]

/-- Witness for C2 at the allowed-access fixture, whose backend call fails:
the audit record is present nevertheless. -/
theorem uploadarchive_audit_record_witness :
    (allowedCmd.Execute ⟨[]⟩).ctx.value "logData" =
      some (.logData ⟨"alex-doe", "group/project-path", 42, 7⟩) ∧
    (allowedCmd.Execute ⟨[]⟩).err = some (.gitaly "gitaly call failed") :=
  uploadarchive_audit_record allowedCmd ⟨[]⟩ "git-upload-archive" "group/repo"
    allowedResponse rfl rfl

/-- Claim C3: any argument vector whose length is not exactly 2 makes
`Command.Execute` return the disallowed-command error with the input context
unchanged and an empty call trace — neither the verifier nor the backend is
invoked. -/
theorem uploadarchive_arity_disallowed (c : Command) (ctx : Context)
    (h : c.sshArgs.length ≠ 2) :
    c.Execute ctx = ⟨ctx, some .disallowedCommand, []⟩ := by
  simp [Command.Execute, h]

/-- Witness for C3 at a one-element argument vector. -/
theorem uploadarchive_arity_disallowed_witness :
    badArityCmd.Execute ⟨[]⟩ = ⟨⟨[]⟩, some .disallowedCommand, []⟩ :=
  uploadarchive_arity_disallowed badArityCmd ⟨[]⟩ (by decide)

/-- Claim C9: on every failure preceding an approval — arity mismatch or
verification error — the context `Command.Execute` returns is exactly the
input context, so in particular no audit record is attached. -/
theorem uploadarchive_pre_approval_ctx_unchanged (c : Command) (ctx : Context)
    (h : c.sshArgs.length ≠ 2 ∨
      ∃ a repo e, c.sshArgs = [a, repo] ∧ c.verify repo = .error e) :
    (c.Execute ctx).ctx = ctx ∧
    (c.Execute ctx).ctx.value "logData" = ctx.value "logData" := by
  have hctx : (c.Execute ctx).ctx = ctx := by
    rcases h with h | ⟨a, repo, e, hargs, he⟩
    · simp [Command.Execute, h]
    · simp [Command.Execute, hargs, he]
  exact ⟨hctx, by rw [hctx]⟩

/-- Witness for C9 at the forbidden-access fixture over a nonempty context. -/
theorem uploadarchive_pre_approval_ctx_unchanged_witness :
    (forbiddenCmd.Execute reqCtx).ctx = reqCtx ∧
    (forbiddenCmd.Execute reqCtx).ctx.value "logData" = reqCtx.value "logData" :=
  uploadarchive_pre_approval_ctx_unchanged forbiddenCmd reqCtx
    (Or.inr ⟨"git-upload-archive", "group/repo", .accessDenied "Disallowed by API call",
      rfl, rfl⟩)

/-- Claim C10: on every approved execution, the backend call in the trace
carries exactly the original input context — not the context extended with the
audit record — while the context returned to the caller is the extended one. -/
theorem uploadarchive_gitaly_original_ctx (c : Command) (ctx : Context) (a repo : String)
    (resp : AccessResponse)
    (hargs : c.sshArgs = [a, repo])
    (hv : c.verify repo = .ok resp) :
    (c.Execute ctx).calls = [.verifier repo, .gitaly ctx resp] ∧
    (c.Execute ctx).ctx = ctx.withValue "logData"
      (.logData (NewLogData resp.glProjectPath resp.username resp.projectID
        resp.rootNamespaceID)) := by
  constructor
  · simp [Command.Execute, hargs, hv]
  · simp [Command.Execute, hargs, hv]

/-- Witness for C10 at the allowed-access fixture over a nonempty context. -/
theorem uploadarchive_gitaly_original_ctx_witness :
    (allowedCmd.Execute reqCtx).calls = [.verifier "group/repo", .gitaly reqCtx allowedResponse] ∧
    (allowedCmd.Execute reqCtx).ctx = reqCtx.withValue "logData"
      (.logData (NewLogData "group/project-path" "alex-doe" 42 7)) :=
  uploadarchive_gitaly_original_ctx allowedCmd reqCtx "git-upload-archive" "group/repo"
    allowedResponse rfl rfl

/-! ## Claims about the credential-issuance client -/

/-- Claim C4: for any non-2xx authority response whose JSON body contains a
`message` field, the error surfaced through `GetPersonalAccessToken` carries
exactly that message — the authority's message takes precedence over any
status-derived text. -/
theorem pat_authority_message_precedence (resp : HTTPResponse) (e : Envelope) (m : String)
    (hs : is2xx resp.status = false)
    (hb : resp.body = .envelope e)
    (hm : e.message = some m) :
    GetPersonalAccessToken resp = .error (.authorityMessage m) ∧
    (APIError.authorityMessage m).text = m := by
  refine ⟨?_, rfl⟩
  simp [GetPersonalAccessToken, normalizeResponse, hs, hb, hm]

/-- Witness for C4 at the fixture's key-id "2" case: HTTP 403 with body
message "Not allowed!" yields error text "Not allowed!". -/
theorem pat_authority_message_precedence_witness :
    GetPersonalAccessToken (patFixtureHandler ⟨"2", 0, ["api"]⟩) =
      .error (.authorityMessage "Not allowed!") ∧
    (APIError.authorityMessage "Not allowed!").text = "Not allowed!" :=
  pat_authority_message_precedence (patFixtureHandler ⟨"2", 0, ["api"]⟩)
    ⟨false, some "Not allowed!", "", [], none⟩ "Not allowed!"
    (by decide) (by decide) (by decide)

/-- Claim C5: for any 2xx authority response whose body is not valid JSON,
`GetPersonalAccessToken` returns exactly the fixed parsing-failure error with
text "Parsing failed", whatever the malformed bytes were — the error does not
depend on the raw body at all. -/
theorem pat_invalid_json_parse_failure (resp : HTTPResponse) (raw : String)
    (hs : is2xx resp.status = true)
    (hb : resp.body = .invalid raw) :
    GetPersonalAccessToken resp = .error .parseFailure ∧
    APIError.parseFailure.text = "Parsing failed" := by
  refine ⟨?_, rfl⟩
  simp [GetPersonalAccessToken, normalizeResponse, hs, hb]

/-- Witness for C5 at the fixture's key-id "3" case: HTTP 200 with a
truncated JSON body yields error text "Parsing failed". -/
theorem pat_invalid_json_parse_failure_witness :
    GetPersonalAccessToken (patFixtureHandler ⟨"3", 0, ["api"]⟩) = .error .parseFailure ∧
    APIError.parseFailure.text = "Parsing failed" :=
  pat_invalid_json_parse_failure (patFixtureHandler ⟨"3", 0, ["api"]⟩)
    "\x7b \"message\": \"broken json!\"" (by decide) (by decide)

/-- Claim C6: for any non-2xx authority response with no parseable message —
an undecodable body or an envelope without a `message` field — the surfaced
error text encodes the status code as "Internal API error (<code>)". -/
theorem pat_bare_status_error (resp : HTTPResponse)
    (hs : is2xx resp.status = false)
    (hb : resp.body.hasMessage = false) :
    GetPersonalAccessToken resp = .error (.bareStatus resp.status) ∧
    (APIError.bareStatus resp.status).text =
      "Internal API error (" ++ toString resp.status ++ ")" := by
  refine ⟨?_, rfl⟩
  obtain ⟨status, body⟩ := resp
  cases body with
  | invalid raw =>
    simp only [is2xx] at hs
    simp [GetPersonalAccessToken, normalizeResponse, is2xx, hs]
  | envelope e =>
    have hm : e.message = none := by
      cases hme : e.message with
      | none => rfl
      | some m => simp [BodyDecode.hasMessage, hme] at hb
    simp only [is2xx] at hs
    simp [GetPersonalAccessToken, normalizeResponse, is2xx, hs, hm]

/-- Witness for C6 at the fixture's key-id "4" case: HTTP 403 with an empty
body yields error text "Internal API error (403)". -/
theorem pat_bare_status_error_witness :
    GetPersonalAccessToken (patFixtureHandler ⟨"4", 0, ["api"]⟩) =
      .error (.bareStatus 403) ∧
    (APIError.bareStatus 403).text = "Internal API error (403)" :=
  pat_bare_status_error (patFixtureHandler ⟨"4", 0, ["api"]⟩) (by decide) (by decide)

/-- Claim C7: credential issuance for the principal with key-id "0" and
requested scopes ["read_api", "read_repository"] succeeds with token
"aAY1G3YPeemECgUvxuXY", a granted scope list equal to the requested scopes,
and the expiry string "9001-11-17" passed through verbatim. -/
theorem pat_issuance_keyid0_success :
    GetPersonalAccessToken (patFixtureHandler ⟨"0", 0, ["read_api", "read_repository"]⟩) =
      .ok ⟨"aAY1G3YPeemECgUvxuXY",
        (⟨"0", 0, ["read_api", "read_repository"]⟩ : RequestBody).scopes,
        some "9001-11-17"⟩ := by
  rfl

/-- Claim C8: when the authority reports `success:false` with message
"missing user" (key-id "1"), the client returns the ordinary
authority-message error kind whose text is exactly "missing user" — no
separate error kind is introduced for this condition. -/
theorem pat_missing_user_authority_message :
    GetPersonalAccessToken (patFixtureHandler ⟨"1", 0, ["api"]⟩) =
      .error (.authorityMessage "missing user") ∧
    (APIError.authorityMessage "missing user").text = "missing user" := by
  exact ⟨rfl, rfl⟩

end GitlabShell
